import Mathlib

/-!
Verification of the endpoint synchronization engine of `tap_mixpanel/sync.py`.

Shallow embedding conventions:
* Instants (UTC datetimes) are modelled as integer seconds; `timedelta(days = n)`
  is `n * 86400` seconds.  Python floor division / floor modulus on these
  quantities coincide with Lean's `Int` `/` and `%` for the positive divisor
  86400.
* Dictionaries (request parameter dicts, records) are association lists in
  which a later write shadows earlier entries; lookup takes the most recent
  binding, matching Python dict overwrite semantics observationally.
* External collaborators (the HTTP client, the schema transformer) are inputs:
  the client's per-page responses are a function from the page index, the
  transformer is the identity on the already-comparable cursor value.
-/

namespace TapMixpanel

/-! ## Time arithmetic -/

/-- Python `timedelta(days = n)` measured in seconds. -/
def daysToSeconds (n : Int) : Int := n * 86400

/-- `(now_datetime - last_dttm).days` (sync.py line 151): the `days` component
of a Python `timedelta`, i.e. the floor of the elapsed seconds divided by
86400. -/
def deltaDays (now checkpoint : Int) : Int := (now - checkpoint) / 86400

/-- The `.seconds` component of a Python `timedelta` (sync.py line 168): the
elapsed seconds floor-reduced modulo one day, a value in `[0, 86400)`.  Note
this is *not* `total_seconds()`. -/
def diffSeconds (endW startW : Int) : Int := (endW - startW) % 86400

/-- `math.ceil(a / (3600 * 24))` for an integer number of seconds `a`
(sync.py line 169). -/
def ceilDivDay (a : Int) : Int := (a + 86399) / 86400

/-! ## Window planner (sync.py lines 145-169) -/

/-- sync.py lines 151-157: the day delta clamped by the attribution window and
the one-year cap, exactly as the `if`/`elif` chain writes it. -/
def plannedDelta (now checkpoint attributionWindow : Int) : Int :=
  if deltaDays now checkpoint ≤ attributionWindow then attributionWindow
  else if 365 ≤ deltaDays now checkpoint then 365
  else deltaDays now checkpoint

/-- sync.py line 161: `start_window = now_datetime - timedelta(days=delta_days)`. -/
def initialStart (now checkpoint attributionWindow : Int) : Int :=
  now - daysToSeconds (plannedDelta now checkpoint attributionWindow)

/-- sync.py lines 162-164: `end_window = start_window + timedelta(days=days_interval)`
capped at `now_datetime`. -/
def initialEnd (now checkpoint attributionWindow daysInterval : Int) : Int :=
  if initialStart now checkpoint attributionWindow + daysToSeconds daysInterval > now then now
  else initialStart now checkpoint attributionWindow + daysToSeconds daysInterval

/-- sync.py lines 147-148: `if not days_interval: days_interval = 30`
(`None` and the falsy integer `0` both fall back to the default). -/
def effectiveDaysInterval (daysInterval : Option Int) : Int :=
  match daysInterval with
  | none => 30
  | some d => if d = 0 then 30 else d

/-- The date-window loop of sync.py lines 176 and 342-347, recorded as the
list of `(start_window, end_window)` pairs processed by successive
iterations.  The loop body runs while `start_window < now_datetime`; each
iteration then advances `start_window = end_window` and
`end_window = min(end_window + timedelta(days=days_interval), now_datetime)`.
The `fuel` argument bounds the number of iterations; the entry points below
supply `(now - start).toNat`, which the termination lemma
`windowLoopAux_spec` shows is always sufficient when the step is positive. -/
def windowLoopAux (now step : Int) : Nat → Int → Int → List (Int × Int)
  | 0, _, _ => []
  | fuel + 1, startW, endW =>
    if startW < now then
      (startW, endW) ::
        windowLoopAux now step fuel endW
          (if endW + step > now then now else endW + step)
    else []

/-- The full window plan for a stream with cursor-range query fields
(`bookmark_query_field_from`/`_to` both set): sync.py lines 150-164 compute
the initial window, lines 176 and 342-347 iterate it. -/
def dateWindows (now checkpoint attributionWindow daysInterval : Int) : List (Int × Int) :=
  windowLoopAux now (daysToSeconds daysInterval)
    (now - initialStart now checkpoint attributionWindow).toNat
    (initialStart now checkpoint attributionWindow)
    (initialEnd now checkpoint attributionWindow daysInterval)

/-- sync.py lines 168-169 for a stream without cursor-range query fields:
`days_interval = math.ceil((end_window - start_window).seconds / (3600*24))`. -/
def daysIntervalNonRange (now checkpoint : Int) : Int :=
  ceilDivDay (diffSeconds now checkpoint)

/-- The window plan for a stream without cursor-range query fields: sync.py
lines 165-169 set `start_window` to the checkpoint and `end_window` to now,
then the same loop (lines 176, 342-347) iterates with the derived step. -/
def nonRangeWindows (now checkpoint : Int) : List (Int × Int) :=
  windowLoopAux now (daysToSeconds (daysIntervalNonRange now checkpoint))
    (now - checkpoint).toNat checkpoint now

/-- Modelled from the spec: `clamp(x, lo, hi) = max lo (min x hi)`, the
clamping operation named by the window-coverage property.  Stated for
comparison with the code's `plannedDelta`. -/
def clampSpec (x lo hi : Int) : Int := max lo (min x hi)

/-- Modelled from the spec: "the total elapsed time between checkpoint and now
in seconds rounded up to whole days" — the value claim C8 asserts for
`days_interval` on a stream without cursor-range query fields. -/
def specElapsedDaysRoundedUp (now checkpoint : Int) : Int :=
  ceilDivDay (now - checkpoint)

/-! ## Chain predicates for window lists -/

/-- `chainFrom s L` states that the windows in `L` tile an interval starting
at `s`: each window starts where the previous one ended (the first at `s`)
and is nonempty. -/
def chainFrom : Int → List (Int × Int) → Prop
  | _, [] => True
  | s, w :: ws => w.1 = s ∧ s < w.2 ∧ chainFrom w.2 ws

/-- The right endpoint of the last window of `L`, defaulting to `s`. -/
def lastEnd (s : Int) : List (Int × Int) → Int
  | [] => s
  | w :: ws => lastEnd w.2 ws

theorem chainFrom_le_lastEnd (L : List (Int × Int)) :
    ∀ s : Int, chainFrom s L → s ≤ lastEnd s L := by
  induction L with
  | nil => intro s _; exact le_refl s
  | cons a ws ih =>
    intro s h
    obtain ⟨_, h2, h3⟩ := h
    exact le_trans (le_of_lt h2) (ih a.2 h3)

theorem chainFrom_mem_bounds (L : List (Int × Int)) :
    ∀ s : Int, chainFrom s L →
      ∀ w ∈ L, s ≤ w.1 ∧ w.1 < w.2 ∧ w.2 ≤ lastEnd s L := by
  induction L with
  | nil => intro s _ w hw; cases hw
  | cons a ws ih =>
    intro s h w hw
    obtain ⟨h1, h2, h3⟩ := h
    have hlast : lastEnd s (a :: ws) = lastEnd a.2 ws := rfl
    rcases List.mem_cons.mp hw with rfl | hw
    · refine ⟨le_of_eq h1.symm, ?_, ?_⟩
      · rw [h1]; exact h2
      · rw [hlast]; exact chainFrom_le_lastEnd ws w.2 h3
    · obtain ⟨b1, b2, b3⟩ := ih a.2 h3 w hw
      exact ⟨le_trans (le_of_lt h2) b1, b2, by rw [hlast]; exact b3⟩

theorem chainFrom_cover (L : List (Int × Int)) :
    ∀ s : Int, chainFrom s L →
      ∀ t : Int, (s ≤ t ∧ t < lastEnd s L) ↔ ∃ w ∈ L, w.1 ≤ t ∧ t < w.2 := by
  induction L with
  | nil =>
    intro s _ t
    simp only [lastEnd, List.not_mem_nil, false_and, exists_false, iff_false, not_and, not_lt]
    intro h; exact h
  | cons a ws ih =>
    intro s h t
    obtain ⟨h1, h2, h3⟩ := h
    have hlast : lastEnd s (a :: ws) = lastEnd a.2 ws := rfl
    constructor
    · rintro ⟨hst, htl⟩
      by_cases hlt : t < a.2
      · exact ⟨a, List.mem_cons_self a ws, by rw [h1]; exact hst, hlt⟩
      · have hmem := (ih a.2 h3 t).mp ⟨not_lt.mp hlt, by rw [← hlast]; exact htl⟩
        obtain ⟨w, hw, hb⟩ := hmem
        exact ⟨w, List.mem_cons_of_mem a hw, hb⟩
    · rintro ⟨w, hw, hw1, hw2⟩
      rcases List.mem_cons.mp hw with rfl | hw
      · constructor
        · rw [← h1]; exact hw1
        · rw [hlast]
          exact lt_of_lt_of_le hw2 (chainFrom_le_lastEnd ws w.2 h3)
      · have hb := chainFrom_mem_bounds ws a.2 h3 w hw
        have := (ih a.2 h3 t).mpr ⟨w, hw, hw1, hw2⟩
        exact ⟨le_trans (le_of_lt h2) (le_trans hb.1 hw1), by rw [hlast]; exact this.2⟩

theorem chainFrom_pairwise (L : List (Int × Int)) :
    ∀ s : Int, chainFrom s L → L.Pairwise (fun a b => a.2 ≤ b.1) := by
  induction L with
  | nil => intro s _; exact List.Pairwise.nil
  | cons a ws ih =>
    intro s h
    obtain ⟨_, _, h3⟩ := h
    refine List.Pairwise.cons ?_ (ih a.2 h3)
    intro b hb
    exact (chainFrom_mem_bounds ws a.2 h3 b hb).1

/-- Invariant of the date-window loop: starting from `startW` with
`endW = min (startW + step) now`, a positive step, and fuel at least
`(now - startW).toNat`, the produced windows form a chain from `startW`,
are empty exactly when `startW ≥ now`, and end at `now` otherwise. -/
theorem windowLoopAux_spec (now step : Int) (hstep : 1 ≤ step) :
    ∀ (fuel : Nat) (startW endW : Int),
      endW = min (startW + step) now →
      (now - startW).toNat ≤ fuel →
      chainFrom startW (windowLoopAux now step fuel startW endW) ∧
      (windowLoopAux now step fuel startW endW = [] ↔ now ≤ startW) ∧
      (startW < now →
        lastEnd startW (windowLoopAux now step fuel startW endW) = now) := by
  intro fuel
  induction fuel with
  | zero =>
    intro startW endW _ hfuel
    have hns : now ≤ startW := by omega
    refine ⟨trivial, ⟨fun _ => hns, fun _ => rfl⟩, fun hc => absurd hc (not_lt.mpr hns)⟩
  | succ fuel ih =>
    intro startW endW hE hfuel
    by_cases hlt : startW < now
    · have hsE : startW < endW := by omega
      have hEn : endW ≤ now := by omega
      have hE' : (if endW + step > now then now else endW + step) = min (endW + step) now := by
        omega
      have hfuel' : (now - endW).toNat ≤ fuel := by omega
      obtain ⟨c1, c2, c3⟩ := ih endW (if endW + step > now then now else endW + step) hE' hfuel'
      have hunfold : windowLoopAux now step (fuel + 1) startW endW =
          (startW, endW) ::
            windowLoopAux now step fuel endW
              (if endW + step > now then now else endW + step) := by
        rw [windowLoopAux, if_pos hlt]
      rw [hunfold]
      refine ⟨⟨rfl, hsE, c1⟩, ?_, ?_⟩
      · simp only [List.cons_ne_nil, false_iff, not_le]
        exact hlt
      · intro _
        have hlast : lastEnd startW ((startW, endW) ::
            windowLoopAux now step fuel endW
              (if endW + step > now then now else endW + step)) =
            lastEnd endW (windowLoopAux now step fuel endW
              (if endW + step > now then now else endW + step)) := rfl
        rw [hlast]
        rcases lt_or_eq_of_le hEn with hElt | hEeq
        · exact c3 hElt
        · rw [c2.mpr (le_of_eq hEeq.symm), lastEnd, hEeq]
    · have hunfold : windowLoopAux now step (fuel + 1) startW endW = [] := by
        rw [windowLoopAux, if_neg hlt]
      rw [hunfold]
      exact ⟨trivial, ⟨fun _ => not_lt.mp hlt, fun _ => rfl⟩,
        fun hc => absurd hc hlt⟩

/-- C1: for every checkpoint ≤ now (with the attribution window in its
documented range and a positive configured window size), the date windows
produced by the loop for a cursor-range stream exactly cover the half-open
interval `[effective_start, now)` with no gaps and no overlaps, where
`effective_start = now - clamp(now - checkpoint in days, attribution_window, 365)` days:
each window's start equals the previous window's end, every window's end is
at most `now`, and the loop stops exactly when `start ≥ now`. -/
theorem c1_window_coverage (now checkpoint attributionWindow daysInterval : Int)
    (_hck : checkpoint ≤ now) (hattr : attributionWindow ≤ 365) (hdi : 1 ≤ daysInterval) :
    initialStart now checkpoint attributionWindow =
      now - daysToSeconds (clampSpec (deltaDays now checkpoint) attributionWindow 365) ∧
    chainFrom (initialStart now checkpoint attributionWindow)
      (dateWindows now checkpoint attributionWindow daysInterval) ∧
    (∀ w ∈ dateWindows now checkpoint attributionWindow daysInterval, w.2 ≤ now) ∧
    (dateWindows now checkpoint attributionWindow daysInterval = [] ↔
      now ≤ initialStart now checkpoint attributionWindow) ∧
    (∀ t : Int,
      (initialStart now checkpoint attributionWindow ≤ t ∧ t < now) ↔
        ∃ w ∈ dateWindows now checkpoint attributionWindow daysInterval,
          w.1 ≤ t ∧ t < w.2) ∧
    List.Pairwise (fun a b => a.2 ≤ b.1)
      (dateWindows now checkpoint attributionWindow daysInterval) := by
  have hstep : 1 ≤ daysToSeconds daysInterval := by
    unfold daysToSeconds; nlinarith
  have hE : initialEnd now checkpoint attributionWindow daysInterval =
      min (initialStart now checkpoint attributionWindow + daysToSeconds daysInterval) now := by
    unfold initialEnd; omega
  obtain ⟨c1, c2, c3⟩ := windowLoopAux_spec now (daysToSeconds daysInterval) hstep
    (now - initialStart now checkpoint attributionWindow).toNat
    (initialStart now checkpoint attributionWindow)
    (initialEnd now checkpoint attributionWindow daysInterval) hE (le_refl _)
  have hW : dateWindows now checkpoint attributionWindow daysInterval =
      windowLoopAux now (daysToSeconds daysInterval)
        (now - initialStart now checkpoint attributionWindow).toNat
        (initialStart now checkpoint attributionWindow)
        (initialEnd now checkpoint attributionWindow daysInterval) := rfl
  rw [hW]
  refine ⟨?_, c1, ?_, c2, ?_, ?_⟩
  · unfold initialStart plannedDelta clampSpec daysToSeconds deltaDays
    omega
  · intro w hw
    by_cases hS : initialStart now checkpoint attributionWindow < now
    · exact le_trans (chainFrom_mem_bounds _ _ c1 w hw).2.2 (le_of_eq (c3 hS))
    · rw [c2.mpr (not_lt.mp hS)] at hw
      cases hw
  · intro t
    by_cases hS : initialStart now checkpoint attributionWindow < now
    · have hc := chainFrom_cover _ _ c1 t
      rw [c3 hS] at hc
      exact hc
    · constructor
      · rintro ⟨h1, h2⟩
        exact absurd (lt_of_le_of_lt h1 h2) hS
      · rintro ⟨w, hw, _⟩
        rw [c2.mpr (not_lt.mp hS)] at hw
        cases hw
  · exact chainFrom_pairwise _ _ c1

/-- C1 witness: a 10-day-old checkpoint with attribution window 5 and a
3-day window size, at `now` = 10 days past the epoch, yields four windows
tiling `[0, now)`. -/
theorem c1_window_coverage_witness :
    initialStart 864000 0 5 =
      864000 - daysToSeconds (clampSpec (deltaDays 864000 0) 5 365) ∧
    chainFrom (initialStart 864000 0 5) (dateWindows 864000 0 5 3) ∧
    (∀ w ∈ dateWindows 864000 0 5 3, w.2 ≤ 864000) ∧
    (dateWindows 864000 0 5 3 = [] ↔ 864000 ≤ initialStart 864000 0 5) ∧
    (∀ t : Int,
      (initialStart 864000 0 5 ≤ t ∧ t < 864000) ↔
        ∃ w ∈ dateWindows 864000 0 5 3, w.1 ≤ t ∧ t < w.2) ∧
    List.Pairwise (fun a b => a.2 ≤ b.1) (dateWindows 864000 0 5 3) :=
  c1_window_coverage 864000 0 5 3 (by decide) (by decide) (by decide)

/-- C3 counterexample: with attribution window 400 (greater than 365) and a
checkpoint exactly 370 days old, `now - checkpoint > 365` days holds but the
first window start computed by the code is `now - 400` days (the attribution
branch fires first), not the `now - 365` days asserted by the claim's
one-year-cap conjunct. -/
theorem c3_counterexample :
    ¬ ((0 : Int) - (-(370 * 86400)) > daysToSeconds 365 →
        initialStart 0 (-(370 * 86400)) 400 = 0 - daysToSeconds 365) := by
  decide

/-- C3 (amended: for attribution windows of at most 365 days): the first
window's start is exactly `now - clamp(now - checkpoint in whole days,
attribution_window, 365)` days; if `now - checkpoint < attribution_window`
days it is exactly `now - attribution_window` days (not the checkpoint), and
if `now - checkpoint > 365` days it is exactly `now - 365` days.  The final
conjunct ties `initialStart` to the first window actually produced. -/
theorem c3_first_window_start (now checkpoint attributionWindow daysInterval : Int)
    (hattr : attributionWindow ≤ 365) :
    initialStart now checkpoint attributionWindow =
      now - daysToSeconds (clampSpec (deltaDays now checkpoint) attributionWindow 365) ∧
    (now - checkpoint < daysToSeconds attributionWindow →
      initialStart now checkpoint attributionWindow =
        now - daysToSeconds attributionWindow) ∧
    (now - checkpoint > daysToSeconds 365 →
      initialStart now checkpoint attributionWindow = now - daysToSeconds 365) ∧
    (initialStart now checkpoint attributionWindow < now →
      (dateWindows now checkpoint attributionWindow daysInterval).head? =
        some (initialStart now checkpoint attributionWindow,
          initialEnd now checkpoint attributionWindow daysInterval)) := by
  refine ⟨?_, ?_, ?_, ?_⟩
  · unfold initialStart plannedDelta clampSpec daysToSeconds deltaDays
    omega
  · intro h
    unfold initialStart plannedDelta daysToSeconds deltaDays
    unfold daysToSeconds at h
    omega
  · intro h
    unfold initialStart plannedDelta daysToSeconds deltaDays
    unfold daysToSeconds at h
    omega
  · intro hS
    obtain ⟨n, hn⟩ : ∃ n, (now - initialStart now checkpoint attributionWindow).toNat
        = n + 1 := ⟨(now - initialStart now checkpoint attributionWindow).toNat - 1, by omega⟩
    have hW : dateWindows now checkpoint attributionWindow daysInterval =
        windowLoopAux now (daysToSeconds daysInterval)
          (now - initialStart now checkpoint attributionWindow).toNat
          (initialStart now checkpoint attributionWindow)
          (initialEnd now checkpoint attributionWindow daysInterval) := rfl
    rw [hW, hn, windowLoopAux, if_pos hS]
    rfl

/-- C3 witness for the amended claim: checkpoint 2 days old, attribution
window 5 ≤ 365, so the first window starts at `now - 5` days. -/
theorem c3_first_window_start_witness :
    initialStart 864000 691200 5 =
      864000 - daysToSeconds (clampSpec (deltaDays 864000 691200) 5 365) ∧
    (864000 - 691200 < daysToSeconds 5 →
      initialStart 864000 691200 5 = 864000 - daysToSeconds 5) ∧
    (864000 - 691200 > daysToSeconds 365 →
      initialStart 864000 691200 5 = 864000 - daysToSeconds 365) ∧
    (initialStart 864000 691200 5 < 864000 →
      (dateWindows 864000 691200 5 3).head? =
        some (initialStart 864000 691200 5, initialEnd 864000 691200 5 3)) :=
  c3_first_window_start 864000 691200 5 3 (by decide)

/-- C8: at the failing input `now - checkpoint = exactly 2 days`, the code's
`days_interval` for a stream without cursor-range fields is
`ceil(((now-checkpoint) mod 86400) / 86400) = 0` — Python's
`timedelta.seconds` component, not `total_seconds()` — while the claim (and
the code's own comment "round-up difference to days") requires
`ceil((now-checkpoint) / 86400) = 2`.  The single-window conjunct of the
claim does hold: the loop still produces exactly `[(checkpoint, now))`. -/
theorem c8_days_interval_mismatch :
    nonRangeWindows 172800 0 = [(0, 172800)] ∧
    daysIntervalNonRange 172800 0 = 0 ∧
    specElapsedDaysRoundedUp 172800 0 = 2 ∧
    daysIntervalNonRange 172800 0 ≠ specElapsedDaysRoundedUp 172800 0 := by
  decide

/-! ## Record processor (sync.py `process_records`, lines 58-104)

A record enters `process_records` already transformed; the only parts of it
the function inspects are the value of the configured bookmark field (a
datetime, modelled as an `Int` — `transform_datetime` is then the identity)
and, earlier in `sync_endpoint`, its identifying fields.  `cursorOf r` is
`transformed_record.get(bookmark_field)`: `none` when the field is absent
from the record or when no bookmark field is configured.  Real bookmark
values are non-empty datetime strings, hence truthy, so Python's
`if transformed_record.get(bookmark_field)` test coincides with presence. -/

/-- One iteration of the `for record in records` body (sync.py lines 86-102):
returns the updated `max_bookmark_value` and whether the record is written.
`hasBF` is `bookmark_field is not None` at stream level; `cursor?` is the
record's bookmark value if the field is present on the record. -/
def recordStep (hasBF : Bool) (lastDatetime : Int) (maxBookmark : Option Int)
    (cursor? : Option Int) : Option Int × Bool :=
  match hasBF, cursor? with
  | true, some c =>
    (match maxBookmark with
     | none => some c
     | some m => if c > m then some c else some m,
     decide (c ≥ lastDatetime))
  | _, _ => (maxBookmark, true)

/-- The loop body of `process_records` acting on the running state
`(max_bookmark_value, written records, counter)`. -/
def processFold (cursorOf : α → Option Int) (hasBF : Bool) (lastDatetime : Int)
    (st : Option Int × List α × Nat) (r : α) : Option Int × List α × Nat :=
  if (recordStep hasBF lastDatetime st.1 (cursorOf r)).2
  then ((recordStep hasBF lastDatetime st.1 (cursorOf r)).1, st.2.1 ++ [r], st.2.2 + 1)
  else ((recordStep hasBF lastDatetime st.1 (cursorOf r)).1, st.2.1, st.2.2)

/-- `process_records` over a batch (sync.py lines 69-104), abstracted over
the record type `α` and the bookmark-field accessor `cursorOf`.  Returns the
final `max_bookmark_value`, the list of records written (in order), and the
counter value. -/
def processRecords (cursorOf : α → Option Int) (hasBF : Bool) (lastDatetime : Int)
    (maxBookmark : Option Int) (records : List α) : Option Int × List α × Nat :=
  records.foldl (processFold cursorOf hasBF lastDatetime) (maxBookmark, [], 0)

/-- The emission predicate of sync.py lines 92-102: emit unless a bookmark
field is configured, present on the record, and its value is strictly below
the last persisted checkpoint. -/
def emitsRecord (hasBF : Bool) (lastDatetime : Int) (cursor? : Option Int) : Bool :=
  match hasBF, cursor? with
  | true, some c => decide (c ≥ lastDatetime)
  | _, _ => true

theorem recordStep_emit (hasBF : Bool) (lastDatetime : Int) (maxBookmark : Option Int)
    (cursor? : Option Int) :
    (recordStep hasBF lastDatetime maxBookmark cursor?).2 =
      emitsRecord hasBF lastDatetime cursor? := by
  cases hasBF <;> cases cursor? <;> rfl

/-- The emitted list and the counter of `processRecords` are the filter (and
its length) of the batch through the emission predicate; the accumulator does
not influence which records are written. -/
theorem processRecords_emitted (cursorOf : α → Option Int) (hasBF : Bool)
    (lastDatetime : Int) :
    ∀ (records : List α) (maxBookmark : Option Int) (acc : List α) (n : Nat),
      (records.foldl (processFold cursorOf hasBF lastDatetime) (maxBookmark, acc, n)).2.1 =
        acc ++ records.filter (fun r => emitsRecord hasBF lastDatetime (cursorOf r)) ∧
      (records.foldl (processFold cursorOf hasBF lastDatetime) (maxBookmark, acc, n)).2.2 =
        n + (records.filter (fun r => emitsRecord hasBF lastDatetime (cursorOf r))).length := by
  intro records
  induction records with
  | nil => intro maxBookmark acc n; simp
  | cons r rs ih =>
    intro maxBookmark acc n
    rw [List.foldl_cons]
    cases hcase : emitsRecord hasBF lastDatetime (cursorOf r) with
    | true =>
      have hstep : processFold cursorOf hasBF lastDatetime (maxBookmark, acc, n) r =
          ((recordStep hasBF lastDatetime maxBookmark (cursorOf r)).1, acc ++ [r], n + 1) := by
        simp [processFold, recordStep_emit, hcase]
      have hfc : List.filter (fun x => emitsRecord hasBF lastDatetime (cursorOf x)) (r :: rs) =
          r :: List.filter (fun x => emitsRecord hasBF lastDatetime (cursorOf x)) rs :=
        List.filter_cons_of_pos hcase
      rw [hstep, hfc]
      obtain ⟨ha, hn⟩ := ih _ (acc ++ [r]) (n + 1)
      constructor
      · rw [ha]
        simp
      · rw [hn, List.length_cons]
        omega
    | false =>
      have hstep : processFold cursorOf hasBF lastDatetime (maxBookmark, acc, n) r =
          ((recordStep hasBF lastDatetime maxBookmark (cursorOf r)).1, acc, n) := by
        simp [processFold, recordStep_emit, hcase]
      have hfc : List.filter (fun x => emitsRecord hasBF lastDatetime (cursorOf x)) (r :: rs) =
          List.filter (fun x => emitsRecord hasBF lastDatetime (cursorOf x)) rs :=
        List.filter_cons_of_neg (by simp [hcase])
      rw [hstep, hfc]
      exact ih _ acc n

/-- C2: with a configured bookmark field, a record carrying the field is
emitted iff its cursor value is at least the last persisted checkpoint
(boundary inclusive), a record without the field is emitted unconditionally,
and with no configured bookmark field every record is emitted: the written
list is exactly the batch filtered by that predicate, in batch order.  The
final conjuncts spell out the claim's two directions on cursor values. -/
theorem c2_cutoff_filtering (cursorOf : α → Option Int) (lastDatetime : Int)
    (maxBookmark : Option Int) (records : List α) :
    (processRecords cursorOf true lastDatetime maxBookmark records).2.1 =
      records.filter (fun r =>
        match cursorOf r with
        | some c => decide (c ≥ lastDatetime)
        | none => true) ∧
    (processRecords cursorOf false lastDatetime maxBookmark records).2.1 = records ∧
    (∀ r ∈ (processRecords cursorOf true lastDatetime maxBookmark records).2.1,
      ∀ c, cursorOf r = some c → lastDatetime ≤ c) ∧
    (∀ r ∈ records, ∀ c, cursorOf r = some c → lastDatetime ≤ c →
      r ∈ (processRecords cursorOf true lastDatetime maxBookmark records).2.1) := by
  have heq1 : (processRecords cursorOf true lastDatetime maxBookmark records).2.1 =
      records.filter (fun r => emitsRecord true lastDatetime (cursorOf r)) := by
    have h1 := (processRecords_emitted cursorOf true lastDatetime records maxBookmark [] 0).1
    simpa [processRecords] using h1
  have heq2 : (processRecords cursorOf false lastDatetime maxBookmark records).2.1 =
      records.filter (fun r => emitsRecord false lastDatetime (cursorOf r)) := by
    have h2 := (processRecords_emitted cursorOf false lastDatetime records maxBookmark [] 0).1
    simpa [processRecords] using h2
  have hfe : (fun r => emitsRecord true lastDatetime (cursorOf r)) =
      (fun r => match cursorOf r with
        | some c => decide (c ≥ lastDatetime)
        | none => true) := by
    funext r
    cases cursorOf r <;> rfl
  refine ⟨?_, ?_, ?_, ?_⟩
  · rw [heq1, hfe]
  · rw [heq2]
    apply List.filter_eq_self.mpr
    intro r _
    cases hc : cursorOf r <;> rfl
  · intro r hr c hc
    rw [heq1] at hr
    have hp := List.of_mem_filter hr
    rw [hc] at hp
    simpa [emitsRecord] using hp
  · intro r hr c hc hge
    have hp : emitsRecord true lastDatetime (cursorOf r) = true := by
      rw [hc]
      simpa [emitsRecord] using hge
    rw [heq1]
    exact List.mem_filter.mpr ⟨hr, hp⟩

/-- C2 witness: with checkpoint 5, the batch `[5, 4, 6, cursorless]` emits
exactly `[5, 6, cursorless]` — the boundary record is kept, the strictly
smaller one dropped — and with no configured bookmark field everything is
emitted. -/
theorem c2_cutoff_filtering_witness :
    (processRecords (fun c => c) true 5 (some 5) [some 5, some 4, some 6, none]).2.1 =
      ([some 5, some 4, some 6, none] : List (Option Int)).filter (fun r =>
        match r with
        | some c => decide (c ≥ 5)
        | none => true) ∧
    (processRecords (fun c => c) false 5 (some 5) [some 5, some 4, some 6, none]).2.1 =
      [some 5, some 4, some 6, none] ∧
    (∀ r ∈ (processRecords (fun c => c) true 5 (some 5)
        [some 5, some 4, some 6, none]).2.1,
      ∀ c : Int, r = some c → 5 ≤ c) ∧
    (∀ r ∈ ([some 5, some 4, some 6, none] : List (Option Int)),
      ∀ c : Int, r = some c → 5 ≤ c →
        r ∈ (processRecords (fun c => c) true 5 (some 5)
          [some 5, some 4, some 6, none]).2.1) :=
  c2_cutoff_filtering (fun c => c) 5 (some 5) [some 5, some 4, some 6, none]

/-- The max accumulator output by one `recordStep` dominates the incoming
accumulator, and (when a bookmark field is configured) the record's cursor
value. -/
theorem recordStep_max_bound (hasBF : Bool) (lastDatetime : Int) (maxBookmark : Option Int)
    (cursor? : Option Int) :
    (∀ v, maxBookmark = some v →
      ∃ w, (recordStep hasBF lastDatetime maxBookmark cursor?).1 = some w ∧ v ≤ w) ∧
    (hasBF = true → ∀ c, cursor? = some c →
      ∃ w, (recordStep hasBF lastDatetime maxBookmark cursor?).1 = some w ∧ c ≤ w) := by
  cases hasBF with
  | false =>
    refine ⟨fun v hv => ⟨v, ?_, le_refl v⟩, fun h => absurd h (by simp)⟩
    cases cursor? <;> simpa [recordStep] using hv
  | true =>
    cases cursor? with
    | none =>
      refine ⟨fun v hv => ⟨v, ?_, le_refl v⟩, fun _ c hc => absurd hc (by simp)⟩
      simpa [recordStep] using hv
    | some c =>
      cases maxBookmark with
      | none =>
        refine ⟨fun v hv => absurd hv (by simp), fun _ c0 hc0 => ?_⟩
        obtain rfl : c = c0 := by simpa using hc0
        exact ⟨c, rfl, le_refl c⟩
      | some m =>
        constructor
        · intro v hv
          obtain rfl : m = v := by simpa using hv
          by_cases hcm : c > m
          · exact ⟨c, by simp [recordStep, hcm], le_of_lt hcm⟩
          · exact ⟨m, by simp [recordStep, hcm], le_refl m⟩
        · intro _ c0 hc0
          obtain rfl : c = c0 := by simpa using hc0
          by_cases hcm : c > m
          · exact ⟨c, by simp [recordStep, hcm], le_refl c⟩
          · exact ⟨m, by simp [recordStep, hcm], not_lt.mp hcm⟩

/-- Folding the `process_records` body only ever raises the accumulator, and
raises it at least to the cursor value of every batch record carrying the
bookmark field. -/
theorem processFold_max_bound (cursorOf : α → Option Int) (hasBF : Bool)
    (lastDatetime : Int) :
    ∀ (records : List α) (st : Option Int × List α × Nat),
      (∀ v, st.1 = some v →
        ∃ w, (records.foldl (processFold cursorOf hasBF lastDatetime) st).1 = some w ∧
          v ≤ w) ∧
      (hasBF = true → ∀ r ∈ records, ∀ c, cursorOf r = some c →
        ∃ w, (records.foldl (processFold cursorOf hasBF lastDatetime) st).1 = some w ∧
          c ≤ w) := by
  intro records
  induction records with
  | nil =>
    intro st
    exact ⟨fun v hv => ⟨v, hv, le_refl v⟩, fun _ r hr => absurd hr (List.not_mem_nil r)⟩
  | cons r rs ih =>
    intro st
    rw [List.foldl_cons]
    have hfst : (processFold cursorOf hasBF lastDatetime st r).1 =
        (recordStep hasBF lastDatetime st.1 (cursorOf r)).1 := by
      unfold processFold
      split <;> rfl
    constructor
    · intro v hv
      obtain ⟨w1, hw1, hvw1⟩ := (recordStep_max_bound hasBF lastDatetime st.1 (cursorOf r)).1 v hv
      obtain ⟨w, hw, hww⟩ := (ih (processFold cursorOf hasBF lastDatetime st r)).1 w1
        (by rw [hfst]; exact hw1)
      exact ⟨w, hw, le_trans hvw1 hww⟩
    · intro hBF r0 hr0 c hc
      rcases List.mem_cons.mp hr0 with rfl | hr0
      · obtain ⟨w1, hw1, hcw1⟩ :=
          (recordStep_max_bound hasBF lastDatetime st.1 (cursorOf r0)).2 hBF c hc
        obtain ⟨w, hw, hww⟩ := (ih (processFold cursorOf hasBF lastDatetime st r0)).1 w1
          (by rw [hfst]; exact hw1)
        exact ⟨w, hw, le_trans hcw1 hww⟩
      · exact (ih (processFold cursorOf hasBF lastDatetime st r)).2 hBF r0 hr0 c hc

/-- C5: after processing a batch, the returned max-cursor accumulator is at
least the pre-batch accumulator and at least the cursor value of every
record emitted in that batch (with a configured bookmark field, the only
case in which records carry cursor values). -/
theorem c5_monotonic_cursor (cursorOf : α → Option Int) (hasBF : Bool)
    (lastDatetime : Int) (maxBookmark : Option Int) (records : List α) :
    (∀ v, maxBookmark = some v →
      ∃ w, (processRecords cursorOf hasBF lastDatetime maxBookmark records).1 = some w ∧
        v ≤ w) ∧
    (hasBF = true →
      ∀ r ∈ (processRecords cursorOf hasBF lastDatetime maxBookmark records).2.1,
        ∀ c, cursorOf r = some c →
          ∃ w, (processRecords cursorOf hasBF lastDatetime maxBookmark records).1 =
            some w ∧ c ≤ w) := by
  have hb := processFold_max_bound cursorOf hasBF lastDatetime records
    (maxBookmark, ([] : List α), 0)
  constructor
  · intro v hv
    exact hb.1 v hv
  · intro hBF r hr c hc
    have heq : (processRecords cursorOf hasBF lastDatetime maxBookmark records).2.1 =
        records.filter (fun x => emitsRecord hasBF lastDatetime (cursorOf x)) := by
      have h0 := (processRecords_emitted cursorOf hasBF lastDatetime records
        maxBookmark [] 0).1
      simpa [processRecords] using h0
    rw [heq] at hr
    exact hb.2 hBF r (List.mem_of_mem_filter hr) c hc

/-- C5 witness: pre-batch accumulator 5 with batch cursors `[7, 3]`: the
returned accumulator is 7, at least 5 and at least every emitted cursor. -/
theorem c5_monotonic_cursor_witness :
    (∀ v : Int, (some 5 : Option Int) = some v →
      ∃ w, (processRecords (fun c => c) true 2 (some 5) [some 7, some 3]).1 = some w ∧
        v ≤ w) ∧
    (true = true →
      ∀ r ∈ (processRecords (fun c => c) true 2 (some 5) [some 7, some 3]).2.1,
        ∀ c : Int, r = some c →
          ∃ w, (processRecords (fun c => c) true 2 (some 5) [some 7, some 3]).1 =
            some w ∧ c ≤ w) :=
  c5_monotonic_cursor (fun c => c) true 2 (some 5) [some 7, some 3]

/-! ## Identifying-field validation (sync.py lines 286-303)

Transformed records are modelled as association lists of string fields in
which the most recent binding wins, mirroring Python dict overwrite
semantics observationally. -/

/-- A transformed record: field name to string value, most recent binding
first. -/
abbrev RecA := List (String × String)

/-- Python `record.get(key)` on the association-list record model. -/
def rget (r : RecA) (k : String) : Option String :=
  (r.find? (fun p => p.1 == k)).map (fun p => p.2)

/-- Python dict assignment `record[key] = value` (a later write shadows any
earlier binding for lookups). -/
def rset (r : RecA) (k v : String) : RecA := (k, v) :: r

/-- `val == '' or not val` (sync.py line 289) on an optional string field
value: true when the identifying field is absent or empty. -/
def missingOrEmpty (v : Option String) : Bool :=
  match v with
  | none => true
  | some s => s == ""

/-- sync.py lines 286-303: before any record of a page reaches
`process_records`, every record is checked for every configured identifying
field; a missing or empty value raises (modelled as `Except.error`), and
only a fully valid page is handed to `process_records`. -/
def syncPageRecords (idFields : List String) (cursorOf : RecA → Option Int)
    (hasBF : Bool) (lastDatetime : Int) (maxBookmark : Option Int)
    (records : List RecA) : Except String (Option Int × List RecA × Nat) :=
  if records.any (fun r => idFields.any (fun k => missingOrEmpty (rget r k)))
  then Except.error "Missing Key"
  else Except.ok (processRecords cursorOf hasBF lastDatetime maxBookmark records)

/-- C6: if any record of a page has a missing or empty value for any
configured identifying field, the page-processing step fails with the
`Missing Key` error and produces no output at all — no record of that page
is emitted and the record is never silently skipped with the run
continuing. -/
theorem c6_missing_id_field_fatal (idFields : List String)
    (cursorOf : RecA → Option Int) (hasBF : Bool) (lastDatetime : Int)
    (maxBookmark : Option Int) (records : List RecA)
    (h : ∃ r ∈ records, ∃ k ∈ idFields, missingOrEmpty (rget r k) = true) :
    syncPageRecords idFields cursorOf hasBF lastDatetime maxBookmark records =
      Except.error "Missing Key" ∧
    ∀ out, syncPageRecords idFields cursorOf hasBF lastDatetime maxBookmark records ≠
      Except.ok out := by
  obtain ⟨r, hr, k, hk, hbad⟩ := h
  have hany : records.any (fun r => idFields.any (fun k => missingOrEmpty (rget r k))) =
      true :=
    List.any_eq_true.mpr ⟨r, hr, List.any_eq_true.mpr ⟨k, hk, hbad⟩⟩
  have herr : syncPageRecords idFields cursorOf hasBF lastDatetime maxBookmark records =
      Except.error "Missing Key" := by
    unfold syncPageRecords
    rw [hany]
    rfl
  exact ⟨herr, fun out hout => by rw [herr] at hout; cases hout⟩

/-- C6 witness: a page whose second record lacks the identifying field `id`
aborts with the `Missing Key` error before emitting anything. -/
theorem c6_missing_id_field_fatal_witness :
    syncPageRecords ["id"] (fun _ => none) false 0 none
        [[("id", "a")], [("name", "x")]] =
      Except.error "Missing Key" ∧
    ∀ out, syncPageRecords ["id"] (fun _ => none) false 0 none
        [[("id", "a")], [("name", "x")]] ≠ Except.ok out :=
  c6_missing_id_field_fatal ["id"] (fun _ => none) false 0 none
    [[("id", "a")], [("name", "x")]]
    ⟨[("name", "x")], by decide, "id", by decide, by decide⟩

/-! ## Date-dictionary normalization (sync.py lines 261-271) -/

/-- sync.py lines 267-268 applied to one date entry: `val['date'] = key` then
`val['datetime'] = '{}T00:00:00Z'.format(key)`. -/
def addDateFields (k : String) (v : RecA) : RecA :=
  rset (rset v "date" k) "datetime" (k ++ "T00:00:00Z")

/-- sync.py lines 261-271: flatten the date-keyed dictionary under the data
key into a list, iterating entries in order and skipping the `$overall`
summary key, injecting the `date` and `datetime` fields into each kept
entry. -/
def normalizeDateDict (entries : List (String × RecA)) : List RecA :=
  entries.foldl
    (fun acc kv => if kv.1 ≠ "$overall" then acc ++ [addDateFields kv.1 kv.2] else acc) []

theorem normalizeDateDict_foldl (entries : List (String × RecA)) :
    ∀ acc : List RecA,
      entries.foldl
        (fun acc kv =>
          if kv.1 ≠ "$overall" then acc ++ [addDateFields kv.1 kv.2] else acc) acc =
      acc ++ (entries.filter (fun kv => kv.1 ≠ "$overall")).map
        (fun kv => addDateFields kv.1 kv.2) := by
  induction entries with
  | nil => intro acc; simp
  | cons kv rest ih =>
    intro acc
    rw [List.foldl_cons]
    by_cases hk : kv.1 = "$overall"
    · rw [if_neg (by simp [hk]), List.filter_cons_of_neg (by simp [hk])]
      exact ih acc
    · rw [if_pos hk, List.filter_cons_of_pos (by simpa using hk)]
      rw [List.map_cons, ih (acc ++ [addDateFields kv.1 kv.2])]
      simp

/-- C7: normalization of a date-keyed dictionary response yields exactly one
record per date key other than `$overall`, in order, each carrying
`date` = key and `datetime` = key ++ "T00:00:00Z"; in particular the
two-entry example with one date key and `$overall` yields exactly one
record with the stated field values. -/
theorem c7_date_dictionary_normalization (entries : List (String × RecA)) :
    normalizeDateDict entries =
      (entries.filter (fun kv => kv.1 ≠ "$overall")).map
        (fun kv => addDateFields kv.1 kv.2) ∧
    (normalizeDateDict entries).length =
      (entries.filter (fun kv => kv.1 ≠ "$overall")).length ∧
    (∀ k : String, ∀ v : RecA,
      rget (addDateFields k v) "date" = some k ∧
      rget (addDateFields k v) "datetime" = some (k ++ "T00:00:00Z")) ∧
    normalizeDateDict [("2024-01-01", [("count", "5")]), ("$overall", [("count", "9")])] =
      [addDateFields "2024-01-01" [("count", "5")]] ∧
    rget (addDateFields "2024-01-01" [("count", "5")]) "date" = some "2024-01-01" ∧
    rget (addDateFields "2024-01-01" [("count", "5")]) "datetime" =
      some "2024-01-01T00:00:00Z" := by
  have heq : normalizeDateDict entries =
      (entries.filter (fun kv => kv.1 ≠ "$overall")).map
        (fun kv => addDateFields kv.1 kv.2) := by
    have h := normalizeDateDict_foldl entries []
    simpa [normalizeDateDict] using h
  refine ⟨heq, ?_, fun k v => ⟨rfl, rfl⟩, by decide, rfl, rfl⟩
  rw [heq, List.length_map]

/-! ## Parent resolver (sync.py lines 193-207) -/

/-- sync.py lines 193-207: when the stream declares both a parent path and a
parent id field (Python truthiness: `none` also stands for the falsy empty
string), the parent listing is whatever the client returned for the parent
endpoint (an input here); otherwise a single synthetic parent
`{id: "none"}` is used and the parent id field is forced to `"id"`.
Returns the parent list and the effective parent id field. -/
def resolveParents (parentPath : Option String) (parentIdField : Option String)
    (clientParents : List RecA) : List RecA × String :=
  match parentPath, parentIdField with
  | some _, some f => (clientParents, f)
  | _, _ => ([[("id", "none")]], "id")

/-- C9 counterexample: for a stream with a parent path and parent id field
whose parent endpoint returns an empty listing, the pagination driver is
handed an empty parent sequence — the claimed non-emptiness is false and
the per-parent loop is a no-op. -/
theorem c9_counterexample :
    ¬ ((resolveParents (some "cohorts/list") (some "id") []).1 ≠ []) := by
  decide

/-- C9 (amended): a stream without a parent path (or without a parent id
field) always gets exactly the synthetic parent list `[{id: "none"}]` with
the id field forced to `"id"` — in particular a non-empty list — while a
stream with a parent path gets exactly the client's parent listing, which
is non-empty provided the parent endpoint returned at least one record. -/
theorem c9_parent_resolution (parentPath f : String) (parentIdField : Option String)
    (clientParents : List RecA) :
    resolveParents none parentIdField clientParents = ([[("id", "none")]], "id") ∧
    (resolveParents none parentIdField clientParents).1 ≠ [] ∧
    resolveParents (some parentPath) none clientParents = ([[("id", "none")]], "id") ∧
    resolveParents (some parentPath) (some f) clientParents = (clientParents, f) ∧
    (clientParents ≠ [] →
      (resolveParents (some parentPath) (some f) clientParents).1 ≠ []) := by
  refine ⟨?_, ?_, rfl, rfl, fun h => h⟩
  · cases parentIdField <;> rfl
  · cases parentIdField <;> simp [resolveParents]

/-- C9 witness: a funnels-style stream whose parent endpoint returns one
record hands that non-empty listing to the driver; a flat stream gets the
sentinel parent. -/
theorem c9_parent_resolution_witness :
    resolveParents none none [[("id", "c1")]] = ([[("id", "none")]], "id") ∧
    (resolveParents none none [[("id", "c1")]]).1 ≠ [] ∧
    resolveParents (some "funnels/list") none [[("id", "c1")]] =
      ([[("id", "none")]], "id") ∧
    resolveParents (some "funnels/list") (some "funnel_id") [[("id", "c1")]] =
      ([[("id", "c1")]], "funnel_id") ∧
    (([[("id", "c1")]] : List RecA) ≠ [] →
      (resolveParents (some "funnels/list") (some "funnel_id") [[("id", "c1")]]).1 ≠ []) :=
  c9_parent_resolution "funnels/list" "funnel_id" none [[("id", "c1")]]

/-! ## Pagination driver (sync.py lines 213-337)

The per-(parent, window) page loop.  The remote server is an input: for each
page index it yields what the loop inspects of the response — whether the
body is truthy, whether the transformed record list is truthy, whether the
body is a dict, its `total` and `session_id` fields, and the accepted record
count reported by `process_records`. -/

/-- What the page loop reads out of one page's response. -/
structure PageResp where
  hasData : Bool
  hasRecords : Bool
  isDict : Bool
  total? : Option Int
  sessionId? : Option Nat
  recordCount : Int

/-- Loop state (sync.py lines 214-218): zero-based page index, running
offset, remote-reported total, continuation token.  The initial
`session_id = 'initial'` string sentinel is modelled as `some 0`. -/
structure PageState where
  page : Nat
  offset : Int
  total : Int
  session : Option Nat

/-- sync.py lines 214-218: `page = 0; offset = 0; total_records = 0;
session_id = 'initial'`. -/
def pageInit : PageState := ⟨0, 0, 0, some 0⟩

/-- sync.py lines 250-314: the state updates of one loop body before the
offset/page increments.  `total_records` and `session_id` are refreshed only
when the body is truthy and the transformed record list is truthy;
`total_records` only on page 0 (defaulting to the page's record count when
the body is not a dict or lacks `total`); `session_id` only when the body is
a dict (`data.get('session_id', None)`). -/
def pageUpdate (st : PageState) (resp : PageResp) : PageState :=
  if resp.hasData ∧ resp.hasRecords then
    { st with
      total := if st.page = 0 then
          (if resp.isDict then resp.total?.getD resp.recordCount else resp.recordCount)
        else st.total,
      session := if resp.isDict then resp.sessionId? else st.session }
  else st

/-- sync.py lines 334-335 after the body: `offset = offset + limit`,
`page = page + 1`. -/
def nextState (server : Nat → PageResp) (limit : Int) (st : PageState) : PageState :=
  { pageUpdate st (server st.page) with
    offset := (pageUpdate st (server st.page)).offset + limit,
    page := (pageUpdate st (server st.page)).page + 1 }

/-- The page loop of sync.py line 222:
`while offset <= total_records and session_id is not None`.  Returns the
`(page, offset)` pair of every request issued, in order, and the final
state.  `fuel` bounds the iteration count; it only ever halts the trace
early if it is smaller than the number of guard-satisfying iterations. -/
def pageLoopAux (server : Nat → PageResp) (limit : Int) :
    Nat → PageState → List (Nat × Int) × PageState
  | 0, st => ([], st)
  | fuel + 1, st =>
    if st.offset ≤ st.total ∧ st.session ≠ none then
      ((st.page, st.offset) ::
          (pageLoopAux server limit fuel (nextState server limit st)).1,
        (pageLoopAux server limit fuel (nextState server limit st)).2)
    else ([], st)

/-- The requests issued for one (parent, window) from the initial state. -/
def pageRequests (server : Nat → PageResp) (limit : Int) (fuel : Nat) :
    List (Nat × Int) :=
  (pageLoopAux server limit fuel pageInit).1

/-- The mocked paginated endpoint of the claim: every page is a dict
carrying `total = 10`, a continuation token, and 4 accepted records. -/
def server10 : Nat → PageResp := fun _ => ⟨true, true, true, some 10, some 1, 4⟩

theorem pageUpdate_page (st : PageState) (resp : PageResp) :
    (pageUpdate st resp).page = st.page := by
  unfold pageUpdate
  split <;> rfl

theorem pageUpdate_offset (st : PageState) (resp : PageResp) :
    (pageUpdate st resp).offset = st.offset := by
  unfold pageUpdate
  split <;> rfl

theorem nextState_page (server : Nat → PageResp) (limit : Int) (st : PageState) :
    (nextState server limit st).page = st.page + 1 := by
  unfold nextState
  rw [pageUpdate_page]

theorem nextState_offset (server : Nat → PageResp) (limit : Int) (st : PageState) :
    (nextState server limit st).offset = st.offset + limit := by
  unfold nextState
  simp [pageUpdate_offset]

/-- The `k`-th request of the page loop carries page index `page₀ + k` and
offset `offset₀ + k·limit`: each iteration advances the offset by the page
size and the page by one. -/
theorem pageLoopAux_trace (server : Nat → PageResp) (limit : Int) :
    ∀ (fuel : Nat) (st : PageState) (k : Nat),
      k < (pageLoopAux server limit fuel st).1.length →
      (pageLoopAux server limit fuel st).1[k]? =
        some (st.page + k, st.offset + (k : Int) * limit) := by
  intro fuel
  induction fuel with
  | zero =>
    intro st k hk
    simp [pageLoopAux] at hk
  | succ fuel ih =>
    intro st k hk
    by_cases hg : st.offset ≤ st.total ∧ st.session ≠ none
    · rw [pageLoopAux, if_pos hg] at hk ⊢
      cases k with
      | zero => simp
      | succ k =>
        have hk' : k < (pageLoopAux server limit fuel (nextState server limit st)).1.length := by
          simpa using hk
        rw [List.getElem?_cons_succ, ih (nextState server limit st) k hk',
          nextState_page, nextState_offset]
        have h1 : st.page + 1 + k = st.page + (k + 1) := by omega
        have h2 : st.offset + limit + (k : Int) * limit =
            st.offset + ((k : Nat) + 1 : Int) * limit := by ring
        rw [h1]
        congr 1
        rw [Prod.mk.injEq]
        refine ⟨rfl, ?_⟩
        rw [h2]
        push_cast
        ring
    · rw [pageLoopAux, if_neg hg] at hk
      simp at hk

/-- If the page loop stops before exhausting its fuel, it stopped because
the guard `offset ≤ total_records ∧ session_id ≠ none` failed at the final
state — never for any other reason. -/
theorem pageLoopAux_halts (server : Nat → PageResp) (limit : Int) :
    ∀ (fuel : Nat) (st : PageState),
      (pageLoopAux server limit fuel st).1.length < fuel →
      ¬((pageLoopAux server limit fuel st).2.offset ≤
          (pageLoopAux server limit fuel st).2.total ∧
        (pageLoopAux server limit fuel st).2.session ≠ none) := by
  intro fuel
  induction fuel with
  | zero =>
    intro st h
    exact absurd h (Nat.not_lt_zero _)
  | succ fuel ih =>
    intro st h
    by_cases hg : st.offset ≤ st.total ∧ st.session ≠ none
    · rw [pageLoopAux, if_pos hg] at h ⊢
      exact ih (nextState server limit st) (by simpa using h)
    · rw [pageLoopAux, if_neg hg]
      exact hg

/-- With any fuel at all, the loop issues no request exactly when the guard
already fails at the initial state. -/
theorem pageLoopAux_empty_iff (server : Nat → PageResp) (limit : Int) :
    ∀ (fuel : Nat) (st : PageState), 0 < fuel →
      ((pageLoopAux server limit fuel st).1 = [] ↔
        ¬(st.offset ≤ st.total ∧ st.session ≠ none)) := by
  intro fuel st h
  obtain ⟨f, rfl⟩ : ∃ f, fuel = f + 1 := ⟨fuel - 1, by omega⟩
  by_cases hg : st.offset ≤ st.total ∧ st.session ≠ none
  · rw [pageLoopAux, if_pos hg]
    simp [hg]
  · rw [pageLoopAux, if_neg hg]
    simp [hg]

/-- C4: the page loop iterates exactly while
`offset ≤ total_records ∧ session_id ≠ none` — each request advances the
offset by the page size and the page index by one, a stop before fuel
exhaustion means the guard failed at the final state, and no request at all
is issued iff the guard fails initially — and for the mocked endpoint with
`total = 10` and page size 4 it issues exactly the three requests at
offsets 0, 4, 8 and no fourth. -/
theorem c4_pagination_termination :
    (∀ (server : Nat → PageResp) (limit : Int) (fuel : Nat) (st : PageState)
      (k : Nat), k < (pageLoopAux server limit fuel st).1.length →
        (pageLoopAux server limit fuel st).1[k]? =
          some (st.page + k, st.offset + (k : Int) * limit)) ∧
    (∀ (server : Nat → PageResp) (limit : Int) (fuel : Nat) (st : PageState),
      (pageLoopAux server limit fuel st).1.length < fuel →
        ¬((pageLoopAux server limit fuel st).2.offset ≤
            (pageLoopAux server limit fuel st).2.total ∧
          (pageLoopAux server limit fuel st).2.session ≠ none)) ∧
    (∀ (server : Nat → PageResp) (limit : Int) (fuel : Nat) (st : PageState),
      0 < fuel →
        ((pageLoopAux server limit fuel st).1 = [] ↔
          ¬(st.offset ≤ st.total ∧ st.session ≠ none))) ∧
    pageRequests server10 4 10 = [(0, 0), (1, 4), (2, 8)] ∧
    (pageRequests server10 4 10).length = 3 :=
  ⟨pageLoopAux_trace, pageLoopAux_halts, pageLoopAux_empty_iff, by decide, by decide⟩

/-- C4 witness: in the mocked `total = 10`, page-size-4 scenario the trace
is exactly `[(0,0), (1,4), (2,8)]` and the loop stopped because the guard
failed (offset 12 exceeds total 10), not because fuel ran out. -/
theorem c4_pagination_termination_witness :
    pageRequests server10 4 10 = [(0, 0), (1, 4), (2, 8)] ∧
    ¬((pageLoopAux server10 4 10 pageInit).2.offset ≤
        (pageLoopAux server10 4 10 pageInit).2.total ∧
      (pageLoopAux server10 4 10 pageInit).2.session ≠ none) :=
  ⟨c4_pagination_termination.2.2.2.1,
    c4_pagination_termination.2.1 server10 4 10 pageInit (by decide)⟩

/-! ## Request-parameter dictionary aliasing across windows (sync.py line 177)

`params = static_params` binds the loop's parameter dict to the stream's
static params object by reference, so keys written during one window or
page persist into the next window.  The embedding threads one dictionary
through the whole run (the aliasing made explicit): each window first
performs the window-start writes (lines 183-190: the cursor-range
from/to fields; lines 219-220: `page_size` when paginating) on the incoming
dict — the dict its first page-0 request then sees — and the page loop then
performs the `session_id`/`page` writes of pages 1..n (lines 223-225).  The
session ids come from server responses and are inputs here. -/

/-- Per-window inputs to the parameter writes: the formatted from/to dates
and the session ids written before pages 1..n. -/
structure WindowParamWrites where
  fromDate : String
  toDate : String
  sessions : List String

/-- sync.py lines 183-190: `params[bookmark_query_field_from] = from_date`
and `params[bookmark_query_field_to] = to_date` when the stream has
cursor-range query fields. -/
def windowRangeParams (hasRange : Bool) (fromField toField : String)
    (w : WindowParamWrites) (params : RecA) : RecA :=
  if hasRange then rset (rset params fromField w.fromDate) toField w.toDate else params

/-- The dict as seen by the window's first request: the range writes
followed by `params['page_size'] = limit` (sync.py lines 219-220) when the
endpoint paginates.  No `session_id`/`page` write happens before a page-0
request. -/
def windowStartParams (hasRange pagination : Bool) (fromField toField : String)
    (w : WindowParamWrites) (params : RecA) : RecA :=
  if pagination then
    rset (windowRangeParams hasRange fromField toField w params) "page_size" "250"
  else windowRangeParams hasRange fromField toField w params

/-- sync.py lines 223-225 over the window's pages 1..n:
`params['session_id'] = session_id` and `params['page'] = page`. -/
def pageParamWrites (sessions : List String) (firstPage : Nat) (params : RecA) : RecA :=
  match sessions with
  | [] => params
  | s :: rest =>
    pageParamWrites rest (firstPage + 1)
      (rset (rset params "session_id" s) "page" (toString firstPage))

/-- The first-request parameter snapshot of every window of a run, threading
the one shared dict: window `i+1`'s snapshot is computed from the dict as
window `i` left it, never from a fresh copy of the static params. -/
def runWindowsParams (hasRange pagination : Bool) (fromField toField : String) :
    List WindowParamWrites → RecA → List RecA
  | [], _ => []
  | w :: ws, params =>
    windowStartParams hasRange pagination fromField toField w params ::
      runWindowsParams hasRange pagination fromField toField ws
        (pageParamWrites w.sessions 1
          (windowStartParams hasRange pagination fromField toField w params))

theorem rget_rset_same (r : RecA) (k v : String) : rget (rset r k v) k = some v := by
  simp [rget, rset]

theorem rget_rset_other (r : RecA) (k v k2 : String) (h : k ≠ k2) :
    rget (rset r k v) k2 = rget r k2 := by
  unfold rget rset
  rw [List.find?_cons_of_neg]
  simp [h]

theorem windowStartParams_preserves (hasRange pagination : Bool)
    (fromField toField : String) (w : WindowParamWrites) (params : RecA)
    (k : String) (h1 : k ≠ fromField) (h2 : k ≠ toField) (h3 : k ≠ "page_size") :
    rget (windowStartParams hasRange pagination fromField toField w params) k =
      rget params k := by
  have hr : rget (windowRangeParams hasRange fromField toField w params) k =
      rget params k := by
    unfold windowRangeParams
    cases hasRange with
    | false => rfl
    | true =>
      rw [if_pos rfl, rget_rset_other _ _ _ _ (fun he => h2 he.symm),
        rget_rset_other _ _ _ _ (fun he => h1 he.symm)]
  unfold windowStartParams
  cases pagination with
  | false => exact hr
  | true =>
    rw [if_pos rfl, rget_rset_other _ _ _ _ (fun he => h3 he.symm)]
    exact hr

theorem pageParamWrites_preserves (k : String) (h1 : k ≠ "session_id")
    (h2 : k ≠ "page") :
    ∀ (sessions : List String) (firstPage : Nat) (params : RecA),
      rget (pageParamWrites sessions firstPage params) k = rget params k := by
  intro sessions
  induction sessions with
  | nil => intro firstPage params; rfl
  | cons s rest ih =>
    intro firstPage params
    unfold pageParamWrites
    rw [ih (firstPage + 1) _, rget_rset_other _ _ _ _ (fun he => h2 he.symm),
      rget_rset_other _ _ _ _ (fun he => h1 he.symm)]

/-- C10: the parameter dict is shared, not copied, across windows: window
`i+1`'s first-request dict is computed from the dict exactly as window `i`
left it, every key other than the window-start writes (the from/to fields
and `page_size`) survives the window-start step unchanged, every key other
than `session_id`/`page` survives the page-loop writes unchanged — so any
key written in an earlier window is still present at the start of every
later window's first request unless overwritten — and concretely, in a
two-window paginated run whose first window saw two pages, the second
window's first request still carries the first window's `session_id` and
`page = 1` alongside its own fresh from/to dates and `page_size`. -/
theorem c10_params_alias_persistence (hasRange pagination : Bool)
    (fromField toField : String) :
    (∀ (w : WindowParamWrites) (ws : List WindowParamWrites) (params : RecA),
      runWindowsParams hasRange pagination fromField toField (w :: ws) params =
        windowStartParams hasRange pagination fromField toField w params ::
          runWindowsParams hasRange pagination fromField toField ws
            (pageParamWrites w.sessions 1
              (windowStartParams hasRange pagination fromField toField w params))) ∧
    (∀ (w : WindowParamWrites) (params : RecA) (k : String),
      k ≠ fromField → k ≠ toField → k ≠ "page_size" →
        rget (windowStartParams hasRange pagination fromField toField w params) k =
          rget params k) ∧
    (∀ (sessions : List String) (firstPage : Nat) (params : RecA) (k : String),
      k ≠ "session_id" → k ≠ "page" →
        rget (pageParamWrites sessions firstPage params) k = rget params k) ∧
    (∃ p1 p2 : RecA,
      runWindowsParams true true "from_date" "to_date"
          [⟨"2024-01-01", "2024-01-31", ["s1"]⟩, ⟨"2024-01-31", "2024-02-29", []⟩]
          [] = [p1, p2] ∧
        rget p2 "session_id" = some "s1" ∧
        rget p2 "page" = some "1" ∧
        rget p2 "page_size" = some "250" ∧
        rget p2 "from_date" = some "2024-01-31" ∧
        rget p2 "to_date" = some "2024-02-29") := by
  refine ⟨fun w ws params => rfl,
    fun w params k h1 h2 h3 =>
      windowStartParams_preserves hasRange pagination fromField toField w params k h1 h2 h3,
    fun sessions firstPage params k h1 h2 =>
      pageParamWrites_preserves k h1 h2 sessions firstPage params,
    ?_⟩
  refine ⟨_, _, rfl, ?_, ?_, ?_, ?_, ?_⟩ <;> decide

/-- C10 witness: a key foreign to all the loop's writes survives both the
window-start writes and the page-loop writes. -/
theorem c10_params_alias_persistence_witness :
    rget (windowStartParams true true "from_date" "to_date"
        ⟨"2024-01-01", "2024-01-31", ["s1"]⟩ [("unit", "day")]) "unit" =
      rget [("unit", "day")] "unit" ∧
    rget (pageParamWrites ["s1"] 1 [("unit", "day")]) "unit" =
      rget [("unit", "day")] "unit" :=
  ⟨(c10_params_alias_persistence true true "from_date" "to_date").2.1
      ⟨"2024-01-01", "2024-01-31", ["s1"]⟩ [("unit", "day")] "unit"
      (by decide) (by decide) (by decide),
    (c10_params_alias_persistence true true "from_date" "to_date").2.2.1
      ["s1"] 1 [("unit", "day")] "unit" (by decide) (by decide)⟩

end TapMixpanel
